import Mathlib

/-!
Shallow embedding of the optimistic checklist-sync controller of
`src/components/note.tsx` and the per-item key handlers of
`src/components/checklist-item.tsx`.

Each React handler becomes a pure function from the current `Note`, the
handler's arguments, and the outcome of the single `fetch` it issues, to the
sequence of `onUpdate` calls it makes and the PUT body it sends.  JavaScript
array helpers (`findIndex`, `lastIndexOf`, `map` with index, stable `sort`)
are embedded with their JS semantics (`-1` sentinel as an `Int`).
Layout-only optional fields of the `Note` interface (`x`, `y`, `width`,
`height`, the `board` reference) are never read or written by the handlers
and are omitted from the embedding.
-/

/-- `ChecklistItem` from `src/components/checklist-item.tsx`. -/
structure ChecklistItem where
  id : String
  content : String
  checked : Bool
  order : Int
deriving DecidableEq, Repr

/-- The `user` sub-object of `Note` in `src/components/note.tsx`. -/
structure NoteUser where
  id : String
  name : Option String
  email : String
  image : Option String
deriving DecidableEq, Repr

/-- `Note` from `src/components/note.tsx` (layout-only fields omitted).
`archivedAt?: string | null` and `checklistItems?: ChecklistItem[]` are
optional fields; `none` stands for absent/null. -/
structure Note where
  id : String
  color : String
  archivedAt : Option String
  createdAt : String
  updatedAt : String
  checklistItems : Option (List ChecklistItem)
  user : NoteUser
  boardId : String
deriving DecidableEq, Repr

/-- JSON body of the PUT request a handler issues.
`archivedAt = none` means the field is absent from the body;
`some none` is an explicit JSON `null`; `some (some t)` a timestamp. -/
structure PutBody where
  checklistItems : List ChecklistItem
  archivedAt : Option (Option String)
deriving DecidableEq, Repr

/-- Outcome of the single `fetch` a handler performs: a 2xx response carrying
the server's canonical note, a non-2xx response, or a thrown/network-level
failure (the promise rejects / `await` throws). -/
inductive FetchOutcome where
  | ok (serverNote : Note)
  | serverError
  | thrown
deriving DecidableEq, Repr

/-- What one handler invocation did: the arguments of its `onUpdate` calls in
order, and the PUT body it sent (`none` when no request was issued). -/
structure OpResult where
  updates : List Note
  request : Option PutBody
deriving DecidableEq, Repr

/-- The local note state after a handler ran: the argument of the last
`onUpdate` call, or the unchanged input note when no call was made. -/
def localState (note : Note) (r : OpResult) : Note :=
  r.updates.getLastD note

/-- JS `Array.prototype.findIndex`: index of the first element satisfying
`p`, or `-1`. -/
def jsFindIndex (p : α → Bool) : List α → Int
  | [] => -1
  | a :: as =>
    if p a then 0
    else
      let r := jsFindIndex p as
      if r = -1 then -1 else r + 1

/-- JS `Array.prototype.lastIndexOf`: index of the last element equal to `x`,
or `-1`. -/
def jsLastIndexOf [BEq α] (x : α) : List α → Int
  | [] => -1
  | a :: as =>
    let r := jsLastIndexOf x as
    if r ≠ -1 then r + 1
    else if a == x then 0 else -1

/-- JS `Array.prototype.map` with the index argument, generalised over the
starting index for the sake of induction. -/
def mapWithIndexFrom (f : Nat → α → β) (k : Nat) : List α → List β
  | [] => []
  | a :: as => f k a :: mapWithIndexFrom f (k + 1) as

/-- JS `arr.map((item, index) => ...)`. -/
def mapWithIndex (f : Nat → α → β) (l : List α) : List β :=
  mapWithIndexFrom f 0 l

/-- The reindexing map of `handleReorderChecklistItems`
(`src/components/note.tsx`, line 254):
`newItems.map((item, index) => ({ ...item, order: index }))`. -/
def reorderedItems (newItems : List ChecklistItem) : List ChecklistItem :=
  mapWithIndex (fun index item => { item with order := Int.ofNat index }) newItems

/-- Stable insertion step for `sortByOrder`: `x` goes before the first
element whose `order` is not smaller, so equal keys keep their relative
position. -/
def insertByOrder (x : ChecklistItem) : List ChecklistItem → List ChecklistItem
  | [] => [x]
  | y :: ys =>
    if y.order < x.order then y :: insertByOrder x ys else x :: y :: ys

/-- JS `items.sort((a, b) => a.order - b.order)`: a stable ascending sort on
the `order` field (embedded as a stable insertion sort, which agrees with
any stable sort under this comparator). -/
def sortByOrder : List ChecklistItem → List ChecklistItem
  | [] => []
  | a :: as => insertByOrder a (sortByOrder as)

/-- The rejection test of `handleReorderChecklistItems`
(`src/components/note.tsx`, lines 244-252): reject when a checked item
precedes an unchecked one. -/
def reorderRejected (newItems : List ChecklistItem) : Bool :=
  let firstCheckedIndex := jsFindIndex (fun element => element.checked) newItems
  let lastUncheckedIndex :=
    jsLastIndexOf false (newItems.map (fun element => element.checked))
  firstCheckedIndex != -1 && (lastUncheckedIndex != -1 &&
    decide (lastUncheckedIndex > firstCheckedIndex))

/-- `handleToggleChecklistItem` (`src/components/note.tsx`, lines 120-164).
On a thrown fetch its `.catch` rolls back to the pre-call note. -/
def handleToggleChecklistItem (note : Note) (itemId : String) (syncDB : Bool)
    (outcome : FetchOutcome) : OpResult :=
  match note.checklistItems with
  | none => ⟨[], none⟩
  | some items =>
    let updatedItems := items.map (fun item =>
      if item.id == itemId then { item with checked := !item.checked } else item)
    let sortedItems := sortByOrder updatedItems
    let optimisticNote := { note with checklistItems := some sortedItems }
    if syncDB then
      let body : PutBody := ⟨sortedItems, none⟩
      match outcome with
      | .ok serverNote => ⟨[optimisticNote, serverNote], some body⟩
      | .serverError => ⟨[optimisticNote, note], some body⟩
      | .thrown => ⟨[optimisticNote, note], some body⟩
    else ⟨[optimisticNote], none⟩

/-- `handleDeleteChecklistItem` (`src/components/note.tsx`, lines 166-199).
A thrown `await fetch` is caught by the outer `catch`, which only logs: the
optimistic state stays in place. -/
def handleDeleteChecklistItem (note : Note) (itemId : String) (syncDB : Bool)
    (outcome : FetchOutcome) : OpResult :=
  match note.checklistItems with
  | none => ⟨[], none⟩
  | some items =>
    let updatedItems := items.filter (fun item => !(item.id == itemId))
    let optimisticNote := { note with checklistItems := some updatedItems }
    if syncDB then
      let body : PutBody := ⟨updatedItems, none⟩
      match outcome with
      | .ok serverNote => ⟨[optimisticNote, serverNote], some body⟩
      | .serverError => ⟨[optimisticNote, note], some body⟩
      | .thrown => ⟨[optimisticNote], some body⟩
    else ⟨[optimisticNote], none⟩

/-- `handleEditChecklistItem` (`src/components/note.tsx`, lines 201-237).
Same shape as delete: a thrown fetch leaves the optimistic state. -/
def handleEditChecklistItem (note : Note) (itemId : String) (content : String)
    (syncDB : Bool) (outcome : FetchOutcome) : OpResult :=
  match note.checklistItems with
  | none => ⟨[], none⟩
  | some items =>
    let updatedItems := items.map (fun item =>
      if item.id == itemId then { item with content := content } else item)
    let optimisticNote := { note with checklistItems := some updatedItems }
    if syncDB then
      let body : PutBody := ⟨updatedItems, none⟩
      match outcome with
      | .ok serverNote => ⟨[optimisticNote, serverNote], some body⟩
      | .serverError => ⟨[optimisticNote, note], some body⟩
      | .thrown => ⟨[optimisticNote], some body⟩
    else ⟨[optimisticNote], none⟩

/-- `handleReorderChecklistItems` (`src/components/note.tsx`, lines 239-285).
`now` stands for `new Date().toISOString()`.  The optimistic note carries
only the reindexed items; `archivedAt` appears only in the PUT body. -/
def handleReorderChecklistItems (note : Note) (newItems : List ChecklistItem)
    (now : String) (syncDB : Bool) (outcome : FetchOutcome) : OpResult :=
  match note.checklistItems with
  | none => ⟨[], none⟩
  | some _ =>
    let allItemsChecked := newItems.all (fun item => item.checked)
    if reorderRejected newItems then ⟨[], none⟩
    else
      let updatedItems := reorderedItems newItems
      let optimisticNote := { note with checklistItems := some updatedItems }
      if syncDB then
        let body : PutBody :=
          ⟨updatedItems, some (if allItemsChecked then some now else none)⟩
        match outcome with
        | .ok serverNote => ⟨[optimisticNote, serverNote], some body⟩
        | .serverError => ⟨[optimisticNote, note], some body⟩
        | .thrown => ⟨[optimisticNote], some body⟩
      else ⟨[optimisticNote], none⟩

/-- `handleAddChecklistItem` (`src/components/note.tsx`, lines 287-329).
`newId` stands for the generated `item_${Date.now()}_${random}` id and `now`
for `new Date().toISOString()`.  The optimistic note recomputes `archivedAt`;
the PUT body carries only the item array. -/
def handleAddChecklistItem (note : Note) (content newId now : String)
    (syncDB : Bool) (outcome : FetchOutcome) : OpResult :=
  let newItem : ChecklistItem :=
    { id := newId, content := content, checked := false,
      order := Int.ofNat (note.checklistItems.getD []).length }
  let allItemsChecked :=
    (note.checklistItems.getD [] ++ [newItem]).all (fun item => item.checked)
  let optimisticNote :=
    { note with
      checklistItems := some (note.checklistItems.getD [] ++ [newItem]),
      archivedAt := if allItemsChecked then some now else none }
  if syncDB then
    let body : PutBody := ⟨note.checklistItems.getD [] ++ [newItem], none⟩
    match outcome with
    | .ok serverNote => ⟨[optimisticNote, serverNote], some body⟩
    | .serverError => ⟨[optimisticNote, note], some body⟩
    | .thrown => ⟨[optimisticNote], some body⟩
  else ⟨[optimisticNote], none⟩

/-- Callback invocations a checklist-item key/blur handler can emit
(`src/components/checklist-item.tsx`). -/
inductive ItemAction where
  | createItem (content : String)
  | blurTarget
  | stopEdit
  | deleteItem (id : String)
  | editItem (id : String) (content : String)
deriving DecidableEq, Repr

/-- JS `String.prototype.trim`: strip whitespace from both ends. -/
def jsTrim (s : String) : String :=
  String.mk (((s.data.dropWhile Char.isWhitespace).reverse.dropWhile
    Char.isWhitespace).reverse)

/-- `editContent?.trim()` is a truthy string: defined and non-empty after
trimming. -/
def draftTruthy (editContent : Option String) : Bool :=
  match editContent with
  | none => false
  | some s => !(jsTrim s == "")

/-- `handleKeyDown` (`src/components/checklist-item.tsx`, lines 73-94) as the
list of callback invocations it performs, in order.  `hasCreateItem` models
whether the optional `onCreateItem` prop was supplied. -/
def handleKeyDown (item : ChecklistItem) (isNewItem : Bool)
    (hasCreateItem : Bool) (editContent : Option String)
    (key : String) (shiftKey : Bool) : List ItemAction :=
  (if key == "Enter" && !shiftKey then
    if isNewItem && draftTruthy editContent && hasCreateItem then
      [ItemAction.createItem (jsTrim (editContent.getD ""))]
    else [ItemAction.blurTarget]
  else []) ++
  (if key == "Escape" then [ItemAction.stopEdit] else []) ++
  (if key == "Backspace" && (editContent.map jsTrim == some "") then
    [ItemAction.deleteItem item.id]
  else [])

/-- `handleBlur` (`src/components/checklist-item.tsx`, lines 96-107).
`deleting` models `deletingRef.current`; `hasEdit` whether the optional
`onEdit` prop was supplied. -/
def handleBlur (item : ChecklistItem) (isNewItem : Bool) (hasCreateItem : Bool)
    (hasEdit : Bool) (isEditing : Bool) (deleting : Bool)
    (editContent : Option String) : List ItemAction :=
  if deleting then []
  else if isNewItem && draftTruthy editContent && hasCreateItem then
    [ItemAction.createItem (jsTrim (editContent.getD "")), ItemAction.stopEdit]
  else if isEditing && editContent.isSome && hasEdit then
    [ItemAction.editItem item.id (editContent.getD ""), ItemAction.stopEdit]
  else [ItemAction.stopEdit]

/-! Concrete data used by witnesses and counterexamples. -/

/-- Item `a` of the spec's concrete toggle scenario. -/
def itemA : ChecklistItem := { id := "a", content := "x", checked := false, order := 0 }

/-- Item `b` of the spec's concrete toggle scenario. -/
def itemB : ChecklistItem := { id := "b", content := "y", checked := false, order := 1 }

/-- A checked item, used for the archive-related cases. -/
def itemC : ChecklistItem := { id := "c", content := "z", checked := true, order := 0 }

/-- A sample note owner. -/
def sampleUser : NoteUser :=
  { id := "u1", name := some "Ann", email := "ann@example.com", image := none }

/-- The spec's concrete scenario note: two unchecked items `a`, `b`. -/
def sampleNote : Note :=
  { id := "n1", color := "#fef3c7", archivedAt := none,
    createdAt := "2024-01-01T00:00:00Z", updatedAt := "2024-01-02T00:00:00Z",
    checklistItems := some [itemA, itemB], user := sampleUser, boardId := "board1" }

/-- A note holding one checked item and no archive timestamp. -/
def archNote : Note := { sampleNote with checklistItems := some [itemC] }

/-- The spec's reorder-rejection sequence `[checked=false, checked=true, checked=false]`. -/
def rejItems : List ChecklistItem :=
  [ { id := "1", content := "p", checked := false, order := 0 },
    { id := "2", content := "q", checked := true, order := 1 },
    { id := "3", content := "r", checked := false, order := 2 } ]

/-- A note whose checklist is `rejItems`. -/
def rejNote : Note := { sampleNote with checklistItems := some rejItems }

/-! Helper lemmas about the handlers' traces. -/

lemma localState_nil (note : Note) (b : Option PutBody) :
    localState note ⟨[], b⟩ = note := rfl

lemma localState_pair (note n1 n2 : Note) (b : Option PutBody) :
    localState note ⟨[n1, n2], b⟩ = n2 := rfl

lemma localState_single (note n1 : Note) (b : Option PutBody) :
    localState note ⟨[n1], b⟩ = n1 := rfl

lemma toggle_serverError_state (note : Note) (itemId : String) :
    localState note (handleToggleChecklistItem note itemId true .serverError) = note := by
  cases h : note.checklistItems <;>
    simp [handleToggleChecklistItem, h, localState_nil, localState_pair]

lemma edit_serverError_state (note : Note) (itemId content : String) :
    localState note (handleEditChecklistItem note itemId content true .serverError) = note := by
  cases h : note.checklistItems <;>
    simp [handleEditChecklistItem, h, localState_nil, localState_pair]

lemma delete_serverError_state (note : Note) (itemId : String) :
    localState note (handleDeleteChecklistItem note itemId true .serverError) = note := by
  cases h : note.checklistItems <;>
    simp [handleDeleteChecklistItem, h, localState_nil, localState_pair]

lemma reorder_serverError_state (note : Note) (newItems : List ChecklistItem) (now : String) :
    localState note (handleReorderChecklistItems note newItems now true .serverError) = note := by
  cases h : note.checklistItems <;>
    simp [handleReorderChecklistItems, h, localState_nil, localState_pair]
  split <;> simp [localState_nil, localState_pair]

lemma add_serverError_state (note : Note) (content newId now : String) :
    localState note (handleAddChecklistItem note content newId now true .serverError) = note := by
  simp [handleAddChecklistItem, localState_pair]

lemma toggle_thrown_state (note : Note) (itemId : String) :
    localState note (handleToggleChecklistItem note itemId true .thrown) = note := by
  cases h : note.checklistItems <;>
    simp [handleToggleChecklistItem, h, localState_nil, localState_pair]

lemma edit_thrown_state (note : Note) (itemId content : String) :
    localState note (handleEditChecklistItem note itemId content true .thrown) =
      (handleEditChecklistItem note itemId content true .thrown).updates.head?.getD note := by
  cases h : note.checklistItems <;>
    simp [handleEditChecklistItem, h, localState, localState_nil, localState_single]

lemma delete_thrown_state (note : Note) (itemId : String) :
    localState note (handleDeleteChecklistItem note itemId true .thrown) =
      (handleDeleteChecklistItem note itemId true .thrown).updates.head?.getD note := by
  cases h : note.checklistItems <;>
    simp [handleDeleteChecklistItem, h, localState, localState_nil, localState_single]

lemma add_thrown_state (note : Note) (content newId now : String) :
    localState note (handleAddChecklistItem note content newId now true .thrown) =
      (handleAddChecklistItem note content newId now true .thrown).updates.head?.getD note := by
  simp [handleAddChecklistItem, localState, localState_single]

lemma reorder_thrown_state (note : Note) (newItems : List ChecklistItem) (now : String) :
    localState note (handleReorderChecklistItems note newItems now true .thrown) =
      (handleReorderChecklistItems note newItems now true .thrown).updates.head?.getD note := by
  cases h : note.checklistItems <;>
    simp [handleReorderChecklistItems, h, localState, localState_nil, localState_single]
  split <;> simp [localState, localState_nil, localState_single]

/-! Claim theorems. -/

/-- C1, counterexample: a thrown fetch during `delete` does NOT restore the
pre-operation snapshot — on `sampleNote`, deleting item `a` with a thrown
fetch leaves the local state different from the pre-call note. -/
theorem claim_C1_counterexample :
    localState sampleNote (handleDeleteChecklistItem sampleNote "a" true .thrown) ≠
      sampleNote := by decide

/-- C1, amended: a non-2xx response triggers full rollback for all five
operations, and a thrown fetch during `toggle` also rolls back; but a thrown
fetch during `edit`, `delete`, `add`, or `reorder` leaves the optimistic
note in place (the last `onUpdate` argument is the first, optimistic one). -/
theorem claim_C1_failure_handling (note : Note)
    (itemId content newId now : String) (newItems : List ChecklistItem) :
    localState note (handleToggleChecklistItem note itemId true .serverError) = note ∧
    localState note (handleEditChecklistItem note itemId content true .serverError) = note ∧
    localState note (handleDeleteChecklistItem note itemId true .serverError) = note ∧
    localState note (handleAddChecklistItem note content newId now true .serverError) = note ∧
    localState note (handleReorderChecklistItems note newItems now true .serverError) = note ∧
    localState note (handleToggleChecklistItem note itemId true .thrown) = note ∧
    localState note (handleEditChecklistItem note itemId content true .thrown) =
      (handleEditChecklistItem note itemId content true .thrown).updates.head?.getD note ∧
    localState note (handleDeleteChecklistItem note itemId true .thrown) =
      (handleDeleteChecklistItem note itemId true .thrown).updates.head?.getD note ∧
    localState note (handleAddChecklistItem note content newId now true .thrown) =
      (handleAddChecklistItem note content newId now true .thrown).updates.head?.getD note ∧
    localState note (handleReorderChecklistItems note newItems now true .thrown) =
      (handleReorderChecklistItems note newItems now true .thrown).updates.head?.getD note :=
  ⟨toggle_serverError_state note itemId,
   edit_serverError_state note itemId content,
   delete_serverError_state note itemId,
   add_serverError_state note content newId now,
   reorder_serverError_state note newItems now,
   toggle_thrown_state note itemId,
   edit_thrown_state note itemId content,
   delete_thrown_state note itemId,
   add_thrown_state note content newId now,
   reorder_thrown_state note newItems now⟩

/-- C6: a non-2xx response leaves the local state identical to the pre-call
snapshot for `toggle`, `edit`, `delete` and `reorder`; concretely, on
`sampleNote` (`a`, `b` unchecked), `toggle("a")` optimistically shows
`a.checked = true` and a simulated 500 reverts to the pre-call note. -/
theorem claim_C6_rollback_idempotence (note : Note)
    (itemId content now : String) (newItems : List ChecklistItem) :
    localState note (handleToggleChecklistItem note itemId true .serverError) = note ∧
    localState note (handleEditChecklistItem note itemId content true .serverError) = note ∧
    localState note (handleDeleteChecklistItem note itemId true .serverError) = note ∧
    localState note (handleReorderChecklistItems note newItems now true .serverError) = note ∧
    (handleToggleChecklistItem sampleNote "a" true .serverError).updates.head? =
      some { sampleNote with
             checklistItems := some [{ itemA with checked := true }, itemB] } ∧
    localState sampleNote (handleToggleChecklistItem sampleNote "a" true .serverError) =
      sampleNote :=
  ⟨toggle_serverError_state note itemId,
   edit_serverError_state note itemId content,
   delete_serverError_state note itemId,
   reorder_serverError_state note newItems now,
   by decide, by decide⟩

/-- C5, counterexample: an accepted `reorder` of `archNote`'s single checked
item leaves the optimistic note with a non-empty, fully checked list but
`archivedAt = null` — `reorder` does not recompute the archive flag in the
optimistic state. -/
theorem claim_C5_counterexample :
    (handleReorderChecklistItems archNote [itemC] "2024-06-01T00:00:00Z" true
        .serverError).updates.head?.map (fun n => n.archivedAt) = some none ∧
    (handleReorderChecklistItems archNote [itemC] "2024-06-01T00:00:00Z" true
        .serverError).updates.head?.map
          (fun n => (n.checklistItems.getD []).all (fun it => it.checked)) = some true ∧
    (handleReorderChecklistItems archNote [itemC] "2024-06-01T00:00:00Z" true
        .serverError).updates.head?.map
          (fun n => (n.checklistItems.getD []).isEmpty) = some false := by
  decide

/-- C5, amended: in the optimistic state, `add` always sets
`archivedAt = null` (the new item is unchecked, so the all-checked condition
is false), while `reorder` leaves the optimistic `archivedAt` unchanged —
the archive condition is recomputed only in `reorder`'s persisted payload. -/
theorem claim_C5_optimistic_archive (note : Note) (content newId now : String)
    (newItems : List ChecklistItem) (syncDB : Bool) (outcome : FetchOutcome) :
    (handleAddChecklistItem note content newId now syncDB outcome).updates.head?.map
      (fun n => n.archivedAt) = some none ∧
    ((handleReorderChecklistItems note newItems now syncDB outcome).updates.head? = none ∨
      (handleReorderChecklistItems note newItems now syncDB outcome).updates.head?.map
        (fun n => n.archivedAt) = some note.archivedAt) := by
  constructor
  · cases syncDB <;> cases outcome <;>
      simp [handleAddChecklistItem, List.all_append]
  · cases h : note.checklistItems
    · left; simp [handleReorderChecklistItems, h]
    · by_cases hrej : reorderRejected newItems = true
      · left; simp [handleReorderChecklistItems, h, hrej]
      · right
        cases syncDB <;> cases outcome <;>
          simp [handleReorderChecklistItems, h, hrej]

/-- C7: the PUT body of `add` always carries exactly the extended item array
and no `archivedAt` field, whatever the outcome and whether or not the
resulting set is fully checked. -/
theorem claim_C7_add_body_no_archive (note : Note) (content newId now : String)
    (outcome : FetchOutcome) :
    (handleAddChecklistItem note content newId now true outcome).request =
      some ⟨note.checklistItems.getD [] ++
              [{ id := newId, content := content, checked := false,
                 order := Int.ofNat (note.checklistItems.getD []).length }],
            none⟩ := by
  cases outcome <;> simp [handleAddChecklistItem]

/-- C10: the optimistic note produced by `add` always has
`archivedAt = null` (the new item is unchecked, so the all-checked test
fails), even when the note's `archivedAt` was previously non-null; it
appends the new unchecked item with `order` equal to the old item count. -/
theorem claim_C10_add_clears_archive (note : Note) (content newId now : String)
    (syncDB : Bool) (outcome : FetchOutcome) :
    (handleAddChecklistItem note content newId now syncDB outcome).updates.head? =
      some { note with
             checklistItems := some (note.checklistItems.getD [] ++
               [{ id := newId, content := content, checked := false,
                  order := Int.ofNat (note.checklistItems.getD []).length }]),
             archivedAt := none } := by
  cases syncDB <;> cases outcome <;>
    simp [handleAddChecklistItem, List.all_append]

/-- C8: with a draft buffer that trims to the empty string, a Backspace key
press emits exactly one `delete` for the item and nothing else — in
particular no `edit` commit. -/
theorem claim_C8_backspace_empty_draft (item : ChecklistItem)
    (isNewItem hasCreateItem shiftKey : Bool) (s : String) (h : jsTrim s = "") :
    handleKeyDown item isNewItem hasCreateItem (some s) "Backspace" shiftKey =
      [ItemAction.deleteItem item.id] := by
  simp [handleKeyDown, h]

/-- C8, witness: the whitespace-only draft `"  "` at a concrete item. -/
theorem claim_C8_backspace_empty_draft_witness :
    jsTrim "  " = "" ∧
    handleKeyDown { id := "a", content := "x", checked := false, order := 0 }
        false true (some "  ") "Backspace" false =
      [ItemAction.deleteItem "a"] :=
  ⟨by decide, claim_C8_backspace_empty_draft _ false true false "  " (by decide)⟩

/-- C2: with persistence enabled and an existing checklist, `reorder` leaves
the note unchanged and issues no PUT exactly when the source's rejection
test fires (first checked index and last unchecked index both exist and the
latter is greater). -/
theorem claim_C2_reorder_rejection (note : Note) (items newItems : List ChecklistItem)
    (now : String) (outcome : FetchOutcome) (h : note.checklistItems = some items) :
    ((handleReorderChecklistItems note newItems now true outcome).request = none ∧
      localState note (handleReorderChecklistItems note newItems now true outcome) = note) ↔
      reorderRejected newItems = true := by
  constructor
  · rintro ⟨hreq, -⟩
    by_contra hrej
    rw [Bool.not_eq_true] at hrej
    cases outcome <;> simp [handleReorderChecklistItems, h, hrej] at hreq
  · intro hrej
    simp [handleReorderChecklistItems, h, hrej, localState]

/-- C2, witness: the spec's `[checked=false, checked=true, checked=false]`
sequence is rejected with no state change and no request. -/
theorem claim_C2_reorder_rejection_witness :
    rejNote.checklistItems = some rejItems ∧
    reorderRejected rejItems = true ∧
    ((handleReorderChecklistItems rejNote rejItems "2024-06-01T00:00:00Z" true
        .serverError).request = none ∧
      localState rejNote (handleReorderChecklistItems rejNote rejItems
        "2024-06-01T00:00:00Z" true .serverError) = rejNote) :=
  ⟨rfl, by decide,
   (claim_C2_reorder_rejection rejNote rejItems rejItems "2024-06-01T00:00:00Z"
     .serverError rfl).mpr (by decide)⟩

/-! Facts about the reindexing map of `reorder`. -/

lemma mapWithIndexFrom_order (k : Nat) (l : List ChecklistItem) :
    (mapWithIndexFrom (fun index item => { item with order := Int.ofNat index }) k l).map
        (fun it => it.order) =
      (List.range' k l.length).map Int.ofNat := by
  induction l generalizing k with
  | nil => rfl
  | cons a as ih =>
    simp only [mapWithIndexFrom, List.map_cons, List.length_cons, List.range'_succ]
    exact congrArg (List.cons (Int.ofNat k)) (ih (k + 1))

lemma reorderedItems_order (l : List ChecklistItem) :
    (reorderedItems l).map (fun it => it.order) = (List.range l.length).map Int.ofNat := by
  rw [reorderedItems, mapWithIndex, mapWithIndexFrom_order, List.range_eq_range']

lemma mapWithIndexFrom_fields (k : Nat) (l : List ChecklistItem) :
    (mapWithIndexFrom (fun index item => { item with order := Int.ofNat index }) k l).map
        (fun it => (it.id, it.content, it.checked)) =
      l.map (fun it => (it.id, it.content, it.checked)) := by
  induction l generalizing k with
  | nil => rfl
  | cons a as ih =>
    simp only [mapWithIndexFrom, List.map_cons]
    exact congrArg (List.cons (a.id, a.content, a.checked)) (ih (k + 1))

lemma reorderedItems_fields (l : List ChecklistItem) :
    (reorderedItems l).map (fun it => (it.id, it.content, it.checked)) =
      l.map (fun it => (it.id, it.content, it.checked)) :=
  mapWithIndexFrom_fields 0 l

/-- C3: an accepted `reorder` puts, in both the optimistic note and the PUT
body, the submitted items with `order` overwritten by the position index —
the `order` values are exactly `0..n-1` in submitted order and `id`,
`content`, `checked` are untouched. -/
theorem claim_C3_reorder_reindex (note : Note) (items newItems : List ChecklistItem)
    (now : String) (outcome : FetchOutcome) (h : note.checklistItems = some items)
    (hrej : reorderRejected newItems = false) :
    (handleReorderChecklistItems note newItems now true outcome).updates.head? =
      some { note with checklistItems := some (reorderedItems newItems) } ∧
    (∃ b, (handleReorderChecklistItems note newItems now true outcome).request = some b ∧
      b.checklistItems = reorderedItems newItems) ∧
    (reorderedItems newItems).map (fun it => it.order) =
      (List.range newItems.length).map Int.ofNat ∧
    (reorderedItems newItems).map (fun it => (it.id, it.content, it.checked)) =
      newItems.map (fun it => (it.id, it.content, it.checked)) := by
  refine ⟨?_, ?_, reorderedItems_order newItems, reorderedItems_fields newItems⟩
  · cases outcome <;> simp [handleReorderChecklistItems, h, hrej]
  · cases outcome <;> simp [handleReorderChecklistItems, h, hrej]

/-- C3, witness: accepted reorder of `[itemA, itemB]` submitted as
`[itemB, itemA]`. -/
theorem claim_C3_reorder_reindex_witness :
    sampleNote.checklistItems = some [itemA, itemB] ∧
    reorderRejected [itemB, itemA] = false ∧
    ((handleReorderChecklistItems sampleNote [itemB, itemA] "2024-06-01T00:00:00Z" true
        .serverError).updates.head? =
      some { sampleNote with checklistItems := some (reorderedItems [itemB, itemA]) } ∧
    (∃ b, (handleReorderChecklistItems sampleNote [itemB, itemA] "2024-06-01T00:00:00Z"
        true .serverError).request = some b ∧
      b.checklistItems = reorderedItems [itemB, itemA]) ∧
    (reorderedItems [itemB, itemA]).map (fun it => it.order) =
      (List.range ([itemB, itemA] : List ChecklistItem).length).map Int.ofNat ∧
    (reorderedItems [itemB, itemA]).map (fun it => (it.id, it.content, it.checked)) =
      ([itemB, itemA] : List ChecklistItem).map (fun it => (it.id, it.content, it.checked))) :=
  ⟨rfl, by decide,
   claim_C3_reorder_reindex sampleNote [itemA, itemB] [itemB, itemA]
     "2024-06-01T00:00:00Z" .serverError rfl (by decide)⟩

/-- C4: the PUT body of an accepted `reorder` carries the reindexed array
together with an `archivedAt` field that is a timestamp when every submitted
item is checked and an explicit `null` otherwise; the four other operations
never put an `archivedAt` field in their bodies. -/
theorem claim_C4_reorder_archive_authority (note : Note)
    (items newItems : List ChecklistItem) (now : String) (outcome : FetchOutcome)
    (h : note.checklistItems = some items) (hrej : reorderRejected newItems = false) :
    (handleReorderChecklistItems note newItems now true outcome).request =
      some ⟨reorderedItems newItems,
            some (if newItems.all (fun item => item.checked) then some now else none)⟩ ∧
    (∀ (n : Note) (itemId : String) (s : Bool) (o : FetchOutcome) (b : PutBody),
      (handleToggleChecklistItem n itemId s o).request = some b → b.archivedAt = none) ∧
    (∀ (n : Note) (itemId content : String) (s : Bool) (o : FetchOutcome) (b : PutBody),
      (handleEditChecklistItem n itemId content s o).request = some b →
        b.archivedAt = none) ∧
    (∀ (n : Note) (itemId : String) (s : Bool) (o : FetchOutcome) (b : PutBody),
      (handleDeleteChecklistItem n itemId s o).request = some b → b.archivedAt = none) ∧
    (∀ (n : Note) (content newId nowA : String) (s : Bool) (o : FetchOutcome) (b : PutBody),
      (handleAddChecklistItem n content newId nowA s o).request = some b →
        b.archivedAt = none) := by
  refine ⟨?_, ?_, ?_, ?_, ?_⟩
  · cases outcome <;> simp [handleReorderChecklistItems, h, hrej]
  · intro n itemId s o b hb
    cases hn : n.checklistItems <;> cases s <;> cases o <;>
      simp [handleToggleChecklistItem, hn] at hb <;> simp [← hb]
  · intro n itemId content s o b hb
    cases hn : n.checklistItems <;> cases s <;> cases o <;>
      simp [handleEditChecklistItem, hn] at hb <;> simp [← hb]
  · intro n itemId s o b hb
    cases hn : n.checklistItems <;> cases s <;> cases o <;>
      simp [handleDeleteChecklistItem, hn] at hb <;> simp [← hb]
  · intro n content newId nowA s o b hb
    cases s <;> cases o <;> simp [handleAddChecklistItem] at hb <;> simp [← hb]

/-- C4, witness: reordering `archNote`'s fully checked single item sends a
timestamp; and the first conjunct instantiated. -/
theorem claim_C4_reorder_archive_authority_witness :
    archNote.checklistItems = some [itemC] ∧
    reorderRejected [itemC] = false ∧
    (handleReorderChecklistItems archNote [itemC] "2024-06-01T00:00:00Z" true
        .serverError).request =
      some ⟨reorderedItems [itemC],
            some (if ([itemC] : List ChecklistItem).all (fun item => item.checked) then
                    some "2024-06-01T00:00:00Z" else none)⟩ :=
  ⟨rfl, by decide,
   (claim_C4_reorder_archive_authority archNote [itemC] [itemC] "2024-06-01T00:00:00Z"
     .serverError rfl (by decide)).1⟩

/-! Index specifications of the JS search helpers, for claim C9. -/

lemma jsFindIndex_cons (p : α → Bool) (a : α) (as : List α) :
    jsFindIndex p (a :: as) =
      if p a then 0
      else if jsFindIndex p as = -1 then -1 else jsFindIndex p as + 1 := rfl

lemma jsLastIndexOf_cons [BEq α] (x a : α) (as : List α) :
    jsLastIndexOf x (a :: as) =
      if jsLastIndexOf x as ≠ -1 then jsLastIndexOf x as + 1
      else if a == x then 0 else -1 := rfl

lemma jsFindIndex_shape (p : α → Bool) (l : List α) :
    jsFindIndex p l = -1 ∨ ∃ n : Nat, jsFindIndex p l = (n : Int) := by
  induction l with
  | nil => exact Or.inl rfl
  | cons a as ih =>
    by_cases hp : p a
    · exact Or.inr ⟨0, by simp [jsFindIndex, hp]⟩
    · rcases ih with h | ⟨n, hn⟩
      · exact Or.inl (by simp [jsFindIndex, hp, h])
      · have hne : (n : Int) ≠ -1 := by omega
        refine Or.inr ⟨n + 1, ?_⟩
        rw [jsFindIndex_cons, if_neg hp, hn, if_neg hne]
        omega

lemma jsFindIndex_spec (p : α → Bool) (l : List α) (n : Nat)
    (h : jsFindIndex p l = (n : Int)) : ∃ x, l[n]? = some x ∧ p x = true := by
  induction l generalizing n with
  | nil =>
    exfalso
    simp only [jsFindIndex] at h
    omega
  | cons a as ih =>
    by_cases hp : p a
    · have hn : n = 0 := by simp [jsFindIndex, hp] at h; omega
      subst hn
      exact ⟨a, by simp, hp⟩
    · rcases jsFindIndex_shape p as with h0 | ⟨m, hm⟩
      · exfalso
        rw [jsFindIndex_cons, if_neg hp, h0, if_pos rfl] at h
        omega
      · have hne : (m : Int) ≠ -1 := by omega
        have h' : (m : Int) + 1 = (n : Int) := by
          simpa [jsFindIndex, hp, hm, hne] using h
        have hn : n = m + 1 := by omega
        subst hn
        rcases ih m hm with ⟨x, hx, hpx⟩
        exact ⟨x, by simpa using hx, hpx⟩

lemma jsFindIndex_le (p : α → Bool) (l : List α) (i : Nat) (x : α)
    (hx : l[i]? = some x) (hpx : p x = true) :
    ∃ n : Nat, jsFindIndex p l = (n : Int) ∧ n ≤ i := by
  induction l generalizing i with
  | nil => simp at hx
  | cons a as ih =>
    by_cases hp : p a
    · exact ⟨0, by simp [jsFindIndex, hp], Nat.zero_le i⟩
    · cases i with
      | zero =>
        have hax : a = x := by simpa using hx
        subst hax
        exact absurd hpx hp
      | succ m =>
        have hx' : as[m]? = some x := by simpa using hx
        rcases ih m hx' with ⟨n, hn, hni⟩
        have hne : (n : Int) ≠ -1 := by omega
        refine ⟨n + 1, ?_, by omega⟩
        rw [jsFindIndex_cons, if_neg hp, hn, if_neg hne]
        omega

lemma jsLastIndexOf_shape [BEq α] (x : α) (l : List α) :
    jsLastIndexOf x l = -1 ∨ ∃ n : Nat, jsLastIndexOf x l = (n : Int) := by
  induction l with
  | nil => exact Or.inl rfl
  | cons a as ih =>
    rcases ih with h | ⟨n, hn⟩
    · by_cases ha : a == x
      · exact Or.inr ⟨0, by simp [jsLastIndexOf, h, ha]⟩
      · exact Or.inl (by simp [jsLastIndexOf, h, ha])
    · have hne : (n : Int) ≠ -1 := by omega
      refine Or.inr ⟨n + 1, ?_⟩
      rw [jsLastIndexOf_cons, hn, if_pos hne]
      omega

lemma jsLastIndexOf_spec [BEq α] [LawfulBEq α] (x : α) (l : List α) (m : Nat)
    (h : jsLastIndexOf x l = (m : Int)) : l[m]? = some x := by
  induction l generalizing m with
  | nil =>
    exfalso
    simp only [jsLastIndexOf] at h
    omega
  | cons a as ih =>
    rcases jsLastIndexOf_shape x as with h0 | ⟨k, hk⟩
    · by_cases ha : a == x
      · have hm : m = 0 := by simp [jsLastIndexOf, h0, ha] at h; omega
        subst hm
        simpa using eq_of_beq ha
      · exfalso
        rw [jsLastIndexOf_cons, h0, if_neg (fun hc => hc rfl), if_neg ha] at h
        omega
    · have hne : (k : Int) ≠ -1 := by omega
      have h' : (k : Int) + 1 = (m : Int) := by
        simpa [jsLastIndexOf, hk, hne] using h
      have hm : m = k + 1 := by omega
      subst hm
      simpa using ih k hk

lemma jsLastIndexOf_ge [BEq α] [LawfulBEq α] (x : α) (l : List α) (j : Nat)
    (h : l[j]? = some x) : ∃ m : Nat, jsLastIndexOf x l = (m : Int) ∧ j ≤ m := by
  induction l generalizing j with
  | nil => simp at h
  | cons a as ih =>
    cases j with
    | zero =>
      rcases jsLastIndexOf_shape x as with h0 | ⟨k, hk⟩
      · have hax : a = x := by simpa using h
        refine ⟨0, ?_, le_rfl⟩
        simp [jsLastIndexOf, h0, hax]
      · have hne : (k : Int) ≠ -1 := by omega
        refine ⟨k + 1, ?_, by omega⟩
        rw [jsLastIndexOf_cons, hk, if_pos hne]
        omega
    | succ n =>
      have h' : as[n]? = some x := by simpa using h
      rcases ih n h' with ⟨k, hk, hkn⟩
      have hne : (k : Int) ≠ -1 := by omega
      refine ⟨k + 1, ?_, by omega⟩
      rw [jsLastIndexOf_cons, hk, if_pos hne]
      omega

lemma reorderRejected_true_iff (items : List ChecklistItem) :
    reorderRejected items = true ↔
      ∃ i j : Nat, i < j ∧
        (items.map (fun it => it.checked))[i]? = some true ∧
        (items.map (fun it => it.checked))[j]? = some false := by
  rw [reorderRejected]
  simp only [Bool.and_eq_true, bne_iff_ne, ne_eq, decide_eq_true_eq, gt_iff_lt]
  constructor
  · rintro ⟨h1, h2, h3⟩
    rcases jsFindIndex_shape (fun e => e.checked) items with h0 | ⟨n, hn⟩
    · exact absurd h0 h1
    rcases jsLastIndexOf_shape false (items.map (fun e => e.checked)) with h0 | ⟨m, hm⟩
    · exact absurd h0 h2
    rcases jsFindIndex_spec (fun e => e.checked) items n hn with ⟨x, hx, hpx⟩
    have hmapx : (items.map (fun it => it.checked))[n]? = some true := by
      rw [List.getElem?_map, hx]
      simpa using hpx
    have hmap2 : (items.map (fun it => it.checked))[m]? = some false :=
      jsLastIndexOf_spec false _ m hm
    have hlt : n < m := by rw [hn, hm] at h3; omega
    exact ⟨n, m, hlt, hmapx, hmap2⟩
  · rintro ⟨i, j, hij, hi, hj⟩
    rw [List.getElem?_map] at hi
    rcases Option.map_eq_some'.mp hi with ⟨x, hx, hcx⟩
    rcases jsFindIndex_le (fun e => e.checked) items i x hx hcx with ⟨n, hn, hni⟩
    rcases jsLastIndexOf_ge false (items.map (fun it => it.checked)) j hj
      with ⟨m, hm, hjm⟩
    refine ⟨by rw [hn]; omega, by rw [hm]; omega, by rw [hn, hm]; omega⟩

lemma all_true_eq_replicate (l : List Bool) (h : ∀ x ∈ l, x = true) :
    l = List.replicate l.length true := by
  induction l with
  | nil => rfl
  | cons a as ih =>
    have ha : a = true := h a (List.mem_cons_self a as)
    have has : as = List.replicate as.length true :=
      ih (fun x hx => h x (List.mem_cons_of_mem a hx))
    rw [List.length_cons, List.replicate_succ, ha, ← has]

lemma noPair_iff_blocks (l : List Bool) :
    (¬ ∃ i j : Nat, i < j ∧ l[i]? = some true ∧ l[j]? = some false) ↔
      ∃ a b : Nat, l = List.replicate a false ++ List.replicate b true := by
  constructor
  · induction l with
    | nil => exact fun _ => ⟨0, 0, rfl⟩
    | cons a as ih =>
      intro h
      cases a with
      | false =>
        have h' : ¬ ∃ i j : Nat, i < j ∧ as[i]? = some true ∧ as[j]? = some false := by
          rintro ⟨i, j, hij, hi, hj⟩
          exact h ⟨i + 1, j + 1, by omega, by simpa using hi, by simpa using hj⟩
        rcases ih h' with ⟨a', b', hab⟩
        exact ⟨a' + 1, b', by rw [List.replicate_succ, List.cons_append, hab]⟩
      | true =>
        have hall : ∀ x ∈ as, x = true := by
          intro x hx
          rcases List.mem_iff_getElem?.1 hx with ⟨j, hj⟩
          by_contra hxf
          have hxf' : x = false := by
            cases x
            · rfl
            · exact absurd rfl hxf
          subst hxf'
          exact h ⟨0, j + 1, by omega, by simp, by simpa using hj⟩
        have has := all_true_eq_replicate as hall
        refine ⟨0, as.length + 1, ?_⟩
        rw [List.replicate, List.nil_append, List.replicate_succ, ← has]
  · rintro ⟨a, b, hab⟩ ⟨i, j, hij, hi, hj⟩
    subst hab
    rw [List.getElem?_append] at hi hj
    by_cases hia : i < (List.replicate a false).length
    · rw [if_pos hia, List.getElem?_replicate] at hi
      rw [List.length_replicate] at hia
      rw [if_pos hia] at hi
      exact Bool.noConfusion (Option.some.inj hi)
    · by_cases hja : j < (List.replicate a false).length
      · exact hia (by omega)
      · rw [if_neg hja, List.getElem?_replicate] at hj
        by_cases hjb : j - (List.replicate a false).length < b
        · rw [if_pos hjb] at hj
          exact Bool.noConfusion (Option.some.inj hj)
        · rw [if_neg hjb] at hj
          exact Option.noConfusion hj

/-- C9: the source's rejection test is equivalent to the existence of a
checked item strictly before an unchecked one, and acceptance is equivalent
to the checked flags being a block of `false` followed by a block of
`true`. -/
theorem claim_C9_rejection_equivalence (items : List ChecklistItem) :
    (reorderRejected items = true ↔
      ∃ i j : Nat, i < j ∧
        (items.map (fun it => it.checked))[i]? = some true ∧
        (items.map (fun it => it.checked))[j]? = some false) ∧
    (reorderRejected items = false ↔
      ∃ a b : Nat, items.map (fun it => it.checked) =
        List.replicate a false ++ List.replicate b true) := by
  have h1 := reorderRejected_true_iff items
  have h2 := noPair_iff_blocks (items.map (fun it => it.checked))
  refine ⟨h1, ?_, ?_⟩
  · intro hf
    apply h2.1
    intro hex
    have ht := h1.mpr hex
    rw [hf] at ht
    exact Bool.noConfusion ht
  · intro hblocks
    by_contra hne
    have ht : reorderRejected items = true := by
      cases hrr : reorderRejected items
      · exact absurd hrr hne
      · rfl
    exact (h2.2 hblocks) (h1.mp ht)
